import Mathlib

/-!
Shallow embedding of the `tcx` crate (src/src/lib.rs): the TCX data model
(Database → Activities → Activity → Lap → Track → Sample) and the derived
metric computations (`Track.ascent`, `Track.descent`, `Activity.distance`,
`Activity.duration`, `Activity.heart_rate`, `Activity.calories`,
`Activity.cadence`, `Activity.ascent`, `Activity.descent`,
`Activity.average_tempo`).

Modelling conventions:
- `f64` values are modelled as `ℚ` (every finite `f64` is a rational;
  rounding of individual arithmetic operations is idealised away).  Where
  IEEE-754 non-finite values are semantically relevant (the pace division in
  `average_tempo`, whose divisor can be zero) we use the extended type `F64`
  with explicit `posInf` / `negInf` / `nan` values and IEEE division and
  addition rules.
- `i32` values are modelled as `ℤ`; integer overflow is out of scope (no
  claim depends on it).  Rust `i32` division truncates toward zero
  (`Int.tdiv`) and panics on a zero divisor; a reachable panic is modelled by
  an `Option` result being `none`.
- `chrono::DateTime<Utc>` timestamps are modelled as `ℤ` (they carry no
  arithmetic in the code under verification).
- `std::time::Duration` / `chrono::Duration` results are modelled by their
  value in seconds.  `Duration::from_secs_f64` panics on a negative,
  non-finite or `≥ 2^64` argument; `chrono::Duration::from_std(..).unwrap()`
  panics when the total exceeds `i64::MAX` milliseconds, i.e. when the
  seconds exceed `9223372036854775`.  Both panics are modelled as `none`.
- Rust `v as u64` on an `f64` truncates toward zero and saturates: negative
  values go to `0`, values `≥ 2^64` go to `2^64 - 1`.
-/

/-- HeartRateBpm wrapper: a single required integer value. -/
structure HeartRate where
  value : ℤ
deriving Repr, DecidableEq

/-- Geographic position of a sample (latitude/longitude degrees). -/
structure Position where
  lat : ℚ
  lon : ℚ
deriving Repr, DecidableEq

/-- Whether the sensor was in contact during the sample. -/
inductive SensorState where
  | Present
  | Absent
deriving Repr, DecidableEq

/-- One trackpoint: timestamp, optional position, optional altitude, heart
rate reading and sensor state. -/
structure Sample where
  time : ℤ
  position : Option Position
  altitude : Option ℚ
  heart_rate : HeartRate
  sensor_state : SensorState
deriving Repr, DecidableEq

/-- The sampled path within a lap: an ordered list of trackpoints. -/
structure Track where
  samples : List Sample
deriving Repr, DecidableEq

/-- A contiguous segment of an activity. -/
structure Lap where
  time : ℚ
  distance : ℚ
  track : Track
  calories : ℤ
  cadence : ℤ
  average_heart_rate : HeartRate
  maximum_heart_rate : HeartRate
deriving Repr, DecidableEq

/-- The sport of an activity. -/
inductive Sport where
  | Running
  | Biking
  | Other
deriving Repr, DecidableEq

/-- One workout session: sport, identifier timestamp, ordered laps. -/
structure Activity where
  sport : Sport
  id : ℤ
  laps : List Lap
deriving Repr, DecidableEq

/-- Wrapper matching the schema Activities envelope. -/
structure Activities where
  activity : Activity
deriving Repr, DecidableEq

/-- Root container for one TCX file. -/
structure Database where
  activities : List Activities
deriving Repr, DecidableEq

/-- Mirror of `altitude_difference` in lib.rs: `Some(a.altitude - b.altitude)`
when both samples carry an altitude, `None` otherwise. -/
def altitude_difference (a b : Sample) : Option ℚ :=
  match a.altitude, b.altitude with
  | some x, some y => some (x - y)
  | _, _ => none

/-- Mirror of `Track::ascent` in lib.rs: over the sliding windows of width 2
(`samples.zip samples.tail`), `filter_map` with
`altitude_difference(&s[0], &s[1])`, keep the strictly positive differences
and sum them.  Note the argument order: the difference computed for the pair
`(s[i], s[i+1])` is `altitude[i] - altitude[i+1]`. -/
def Track.ascent (t : Track) : ℚ :=
  (((t.samples.zip t.samples.tail).filterMap
      (fun s => altitude_difference s.1 s.2)).filter
    (fun d => decide (0 < d))).sum

/-- Mirror of `Track::descent` in lib.rs: identical to `Track.ascent` except
that the window pair is passed in the opposite order,
`altitude_difference(&s[1], &s[0])`, i.e. `altitude[i+1] - altitude[i]`. -/
def Track.descent (t : Track) : ℚ :=
  (((t.samples.zip t.samples.tail).filterMap
      (fun s => altitude_difference s.2 s.1)).filter
    (fun d => decide (0 < d))).sum

/-- Mirror of `Activity::distance`: sum of lap distances. -/
def Activity.distance (a : Activity) : ℚ :=
  (a.laps.map (fun l => l.distance)).sum

/-- Rust `q as u64` for an `f64` value modelled as `ℚ`: truncate toward zero
and saturate, so negative values give `0` and values `≥ 2^64` give
`2^64 - 1`. -/
def rustCastU64 (q : ℚ) : ℕ :=
  min ⌊q⌋.toNat (2 ^ 64 - 1)

/-- Largest whole number of seconds accepted by
`chrono::Duration::from_std`: `i64::MAX` milliseconds. -/
def chronoMaxSecs : ℕ := 9223372036854775

/-- Mirror of `Activity::duration`: sum the lap times cast with `as u64`,
then convert through `Duration::from_secs` and
`chrono::Duration::from_std(..).unwrap()`.  The unwrap panics (modelled as
`none`) when the total exceeds `i64::MAX` milliseconds.  The result is the
duration in whole seconds. -/
def Activity.duration (a : Activity) : Option ℕ :=
  let secs := (a.laps.map (fun l => rustCastU64 l.time)).sum
  if secs ≤ chronoMaxSecs then some secs else none

/-- Mirror of `Activity::heart_rate`: `0` for zero laps, otherwise the sum of
the laps' average heart rates divided by the lap count with Rust `i32`
division (truncation toward zero). -/
def Activity.heart_rate (a : Activity) : ℤ :=
  if a.laps.isEmpty then 0
  else Int.tdiv (a.laps.map (fun l => l.average_heart_rate.value)).sum a.laps.length

/-- Mirror of `Activity::calories`: sum of lap calories. -/
def Activity.calories (a : Activity) : ℤ :=
  (a.laps.map (fun l => l.calories)).sum

/-- Mirror of `Activity::cadence`: the sum of lap cadences divided by the lap
count with Rust `i32` division.  Unlike `Activity::heart_rate` there is no
empty guard, and `i32` division by zero panics in Rust (modelled as
`none`). -/
def Activity.cadence (a : Activity) : Option ℤ :=
  if a.laps.length = 0 then none
  else some (Int.tdiv (a.laps.map (fun l => l.cadence)).sum a.laps.length)

/-- Mirror of `Activity::ascent`: sum of the per-lap track ascents. -/
def Activity.ascent (a : Activity) : ℚ :=
  (a.laps.map (fun l => l.track.ascent)).sum

/-- Mirror of `Activity::descent`: sum of the per-lap track descents. -/
def Activity.descent (a : Activity) : ℚ :=
  (a.laps.map (fun l => l.track.descent)).sum

/-- An `f64` value extended with the IEEE-754 non-finite values, used where
the code can divide by zero (`Activity.average_tempo`). -/
inductive F64 where
  | finite (q : ℚ)
  | posInf
  | negInf
  | nan
deriving Repr, DecidableEq

/-- IEEE-754 addition on extended values (finite arithmetic idealised as
exact rational arithmetic). -/
def F64.add : F64 → F64 → F64
  | .nan, _ => .nan
  | _, .nan => .nan
  | .posInf, .negInf => .nan
  | .negInf, .posInf => .nan
  | .posInf, _ => .posInf
  | _, .posInf => .posInf
  | .negInf, _ => .negInf
  | _, .negInf => .negInf
  | .finite a, .finite b => .finite (a + b)

/-- IEEE-754 division on extended values: a finite nonzero value divided by
zero gives a signed infinity, `0/0` gives NaN (`ℚ` has a single zero, so the
sign of a zero divisor is taken as positive). -/
def F64.div : F64 → F64 → F64
  | .nan, _ => .nan
  | _, .nan => .nan
  | .posInf, .posInf => .nan
  | .posInf, .negInf => .nan
  | .negInf, .posInf => .nan
  | .negInf, .negInf => .nan
  | .posInf, .finite b => if b < 0 then .negInf else .posInf
  | .negInf, .finite b => if b < 0 then .posInf else .negInf
  | .finite _, .posInf => .finite 0
  | .finite _, .negInf => .finite 0
  | .finite a, .finite b =>
      if b = 0 then (if 0 < a then .posInf else if a < 0 then .negInf else .nan)
      else .finite (a / b)

/-- Rust `Iterator::sum` for `f64`: fold addition starting from `0.0`. -/
def F64.sumList (l : List F64) : F64 :=
  l.foldl F64.add (.finite 0)

/-- `std::time::Duration::from_secs_f64`: panics (modelled `none`) when the
argument is non-finite, negative or does not fit a `Duration`
(`≥ 2^64` seconds); otherwise the duration with that many seconds
(sub-nanosecond rounding idealised away). -/
def durationFromSecsF64 (x : F64) : Option ℚ :=
  match x with
  | .finite q => if 0 ≤ q ∧ q < 2 ^ 64 then some q else none
  | _ => none

/-- The closure in `Activity::average_tempo`: the per-lap pace
`l.time / (l.distance / 1000.0)` with IEEE division. -/
def fpPace (l : Lap) : F64 :=
  F64.div (.finite l.time) (F64.div (.finite l.distance) (.finite 1000))

/-- Mirror of `Activity::average_tempo`: for each lap the pace
`l.time / (l.distance / 1000.0)` with IEEE division, summed and divided by
the lap count, then passed through `Duration::from_secs_f64`. -/
def Activity.average_tempo (a : Activity) : Option ℚ :=
  durationFromSecsF64
    (F64.div (F64.sumList (a.laps.map fpPace)) (.finite (a.laps.length : ℚ)))

/-! ## Definitions following the spec text, for comparison with the code -/

/-- Modelled from the spec: iterate adjacent altitude pairs in order; where
both altitudes are present add the strictly positive gains
`altitude[i+1] - altitude[i]`; pairs missing an altitude contribute
nothing. -/
def specGainSum : List (Option ℚ) → ℚ
  | [] => 0
  | [_] => 0
  | none :: b :: rest => specGainSum (b :: rest)
  | some _ :: none :: rest => specGainSum (none :: rest)
  | some x :: some y :: rest =>
      (if 0 < y - x then y - x else 0) + specGainSum (some y :: rest)

/-- Modelled from the spec: iterate adjacent altitude pairs in order; where
both altitudes are present add the strictly positive drops
`altitude[i] - altitude[i+1]`; pairs missing an altitude contribute
nothing. -/
def specDropSum : List (Option ℚ) → ℚ
  | [] => 0
  | [_] => 0
  | none :: b :: rest => specDropSum (b :: rest)
  | some _ :: none :: rest => specDropSum (none :: rest)
  | some x :: some y :: rest =>
      (if 0 < x - y then x - y else 0) + specDropSum (some y :: rest)

/-- The altitude sequence of a track. -/
def Track.altitudes (t : Track) : List (Option ℚ) :=
  t.samples.map (fun s => s.altitude)

/-- Modelled from the spec: the per-lap pace in seconds per kilometre as an
exact rational, `lap.time / (lap.distance / 1000)`. -/
def lapPace (l : Lap) : ℚ :=
  l.time / (l.distance / 1000)

/-- Modelled from the spec: the arithmetic mean of the per-lap paces (sum
across laps divided by lap count). -/
def tempoMean (a : Activity) : ℚ :=
  (a.laps.map lapPace).sum / (a.laps.length : ℚ)

/-- The sum of the laps' average heart rates. -/
def hrSum (a : Activity) : ℤ :=
  (a.laps.map (fun l => l.average_heart_rate.value)).sum

/-! ## Concrete inputs -/

/-- A sample with the given altitude and neutral remaining fields. -/
def altSample (alt : Option ℚ) : Sample :=
  { time := 0, position := none, altitude := alt
    heart_rate := ⟨0⟩, sensor_state := .Present }

/-- A lap with the given time, distance, cadence and average heart rate, an
empty track and no calories. -/
def mkLap (time distance : ℚ) (cad hr : ℤ) : Lap :=
  { time := time, distance := distance, track := ⟨[]⟩, calories := 0
    cadence := cad, average_heart_rate := ⟨hr⟩, maximum_heart_rate := ⟨hr⟩ }

/-- Two samples climbing from altitude 10 to altitude 15. -/
def track1015 : Track := ⟨[altSample (some 10), altSample (some 15)]⟩

/-- Two samples dropping from altitude 15 to altitude 10. -/
def track1510 : Track := ⟨[altSample (some 15), altSample (some 10)]⟩

/-- Altitudes 100, missing, 105: both adjacent pairs span a missing
altitude. -/
def trackGap : Track :=
  ⟨[altSample (some 100), altSample none, altSample (some 105)]⟩

/-- The empty track. -/
def emptyTrack : Track := ⟨[]⟩

/-- An activity with zero laps. -/
def emptyLapActivity : Activity := ⟨.Running, 0, []⟩

/-- Another activity with zero laps. -/
def emptyLapBiking : Activity := ⟨.Biking, 0, []⟩

/-- One lap of 10^16 seconds: beyond the range of `chrono::Duration`. -/
def hugeActivity : Activity := ⟨.Running, 0, [mkLap (10 ^ 16) 0 0 0]⟩

/-- Laps of 10.7 s and 5.4 s: the spec's truncation example. -/
def truncActivity : Activity :=
  ⟨.Running, 0, [mkLap (107 / 10) 1000 0 0, mkLap (27 / 5) 1000 0 0]⟩

/-- One lap with positive time and zero distance. -/
def zeroDistActivity : Activity := ⟨.Running, 0, [mkLap 1 0 0 0]⟩

/-- A normal lap followed by a zero-distance lap. -/
def zeroDistSecondActivity : Activity :=
  ⟨.Running, 0, [mkLap 300 1000 0 0, mkLap 1 0 0 0]⟩

/-- Two laps with average heart rates 60 and 81 (odd sum). -/
def hr6081Activity : Activity :=
  ⟨.Running, 0, [mkLap 0 0 0 60, mkLap 0 0 0 81]⟩

/-- Two laps with average heart rates 60 and 80 (the spec's example). -/
def hr6080Activity : Activity :=
  ⟨.Running, 0, [mkLap 0 0 0 60, mkLap 0 0 0 80]⟩

/-- One lap with a negative time and positive distance. -/
def negTimeActivity : Activity := ⟨.Running, 0, [mkLap (-60) 1000 0 0]⟩

/-- Two laps of equal distance with paces 240 s/km and 360 s/km. -/
def tempoActivity : Activity :=
  ⟨.Running, 0, [mkLap 240 1000 0 0, mkLap 360 1000 0 0]⟩

/-! ## Helper lemmas -/

/-- One unfolding step of `Track.ascent` on a track with at least two
samples. -/
lemma Track.ascent_cons (s1 s2 : Sample) (rest : List Sample) :
    Track.ascent ⟨s1 :: s2 :: rest⟩ =
      (match altitude_difference s1 s2 with
       | some d => if 0 < d then d else 0
       | none => 0) + Track.ascent ⟨s2 :: rest⟩ := by
  rcases h : altitude_difference s1 s2 with _ | d
  · simp [Track.ascent, h]
  · by_cases hd : 0 < d
    · simp [Track.ascent, h, hd]
    · simp [Track.ascent, h, hd]

/-- One unfolding step of `Track.descent` on a track with at least two
samples. -/
lemma Track.descent_cons (s1 s2 : Sample) (rest : List Sample) :
    Track.descent ⟨s1 :: s2 :: rest⟩ =
      (match altitude_difference s2 s1 with
       | some d => if 0 < d then d else 0
       | none => 0) + Track.descent ⟨s2 :: rest⟩ := by
  rcases h : altitude_difference s2 s1 with _ | d
  · simp [Track.descent, h]
  · by_cases hd : 0 < d
    · simp [Track.descent, h, hd]
    · simp [Track.descent, h, hd]

/-- The code's `Track.ascent` computes the adjacent-pair sum of strictly
positive drops `altitude[i] - altitude[i+1]`, skipping pairs that miss an
altitude. -/
lemma Track.ascent_eq_specDropSum (l : List Sample) :
    Track.ascent ⟨l⟩ = specDropSum (l.map (fun s => s.altitude)) := by
  induction l with
  | nil => rfl
  | cons s rest ih =>
    cases rest with
    | nil =>
      rcases h : s.altitude with _ | x <;> simp [Track.ascent, specDropSum, h]
    | cons s2 rest2 =>
      rw [Track.ascent_cons, ih]
      rcases h1 : s.altitude with _ | x <;> rcases h2 : s2.altitude with _ | y <;>
        simp [specDropSum, altitude_difference, h1, h2]

/-- The code's `Track.descent` computes the adjacent-pair sum of strictly
positive gains `altitude[i+1] - altitude[i]`, skipping pairs that miss an
altitude. -/
lemma Track.descent_eq_specGainSum (l : List Sample) :
    Track.descent ⟨l⟩ = specGainSum (l.map (fun s => s.altitude)) := by
  induction l with
  | nil => rfl
  | cons s rest ih =>
    cases rest with
    | nil =>
      rcases h : s.altitude with _ | x <;> simp [Track.descent, specGainSum, h]
    | cons s2 rest2 =>
      rw [Track.descent_cons, ih]
      rcases h1 : s.altitude with _ | x <;> rcases h2 : s2.altitude with _ | y <;>
        simp [specGainSum, altitude_difference, h1, h2]

/-- Only strictly positive differences are summed, so ascent is
non-negative. -/
lemma Track.ascent_nonneg (t : Track) : 0 ≤ t.ascent := by
  apply List.sum_nonneg
  intro x hx
  have := List.of_mem_filter hx
  simp only [decide_eq_true_eq] at this
  exact le_of_lt this

/-- Only strictly positive differences are summed, so descent is
non-negative. -/
lemma Track.descent_nonneg (t : Track) : 0 ≤ t.descent := by
  apply List.sum_nonneg
  intro x hx
  have := List.of_mem_filter hx
  simp only [decide_eq_true_eq] at this
  exact le_of_lt this

/-- A track with fewer than two samples has no adjacent pair. -/
lemma Track.ascent_of_short (t : Track) (h : t.samples.length ≤ 1) :
    t.ascent = 0 := by
  obtain ⟨l⟩ := t
  match l, h with
  | [], _ => rfl
  | [s], _ => rfl

/-- A track with fewer than two samples has no adjacent pair. -/
lemma Track.descent_of_short (t : Track) (h : t.samples.length ≤ 1) :
    t.descent = 0 := by
  obtain ⟨l⟩ := t
  match l, h with
  | [], _ => rfl
  | [s], _ => rfl

/-- When no sample carries an altitude every pair is skipped. -/
lemma Track.ascent_of_all_none (t : Track)
    (h : ∀ s ∈ t.samples, s.altitude = none) : t.ascent = 0 := by
  have hnil : (t.samples.zip t.samples.tail).filterMap
      (fun s => altitude_difference s.1 s.2) = [] := by
    rw [List.filterMap_eq_nil_iff]
    rintro ⟨a, b⟩ hab
    have ha : a ∈ t.samples := (List.of_mem_zip hab).1
    simp [altitude_difference, h a ha]
  simp [Track.ascent, hnil]

/-- When no sample carries an altitude every pair is skipped. -/
lemma Track.descent_of_all_none (t : Track)
    (h : ∀ s ∈ t.samples, s.altitude = none) : t.descent = 0 := by
  have hnil : (t.samples.zip t.samples.tail).filterMap
      (fun s => altitude_difference s.2 s.1) = [] := by
    rw [List.filterMap_eq_nil_iff]
    rintro ⟨a, b⟩ hab
    have hb : b ∈ t.samples.tail := (List.of_mem_zip hab).2
    have hb2 : b ∈ t.samples := List.mem_of_mem_tail hb
    simp [altitude_difference, h b hb2]
  simp [Track.descent, hnil]

/-- Whether an extended value is finite. -/
def F64.isFinite : F64 → Bool
  | .finite _ => true
  | _ => false

/-- IEEE addition never produces a finite value from a non-finite
argument. -/
lemma F64.add_not_finite {x y : F64}
    (h : x.isFinite = false ∨ y.isFinite = false) :
    (F64.add x y).isFinite = false := by
  cases x <;> cases y <;> simp_all [F64.add, F64.isFinite]

/-- IEEE division by a finite value never produces a finite value from a
non-finite numerator. -/
lemma F64.div_not_finite {x : F64} (y : F64) (h : x.isFinite = false) :
    (F64.div x y).isFinite = false := by
  cases x with
  | finite q => simp [F64.isFinite] at h
  | posInf =>
    cases y <;> simp only [F64.div] <;> (try rfl) <;> (split <;> rfl)
  | negInf =>
    cases y <;> simp only [F64.div] <;> (try rfl) <;> (split <;> rfl)
  | nan => cases y <;> rfl

/-- A non-finite summand makes the whole `f64` sum non-finite. -/
lemma F64.sumList_not_finite {l : List F64} {x : F64} (hx : x ∈ l)
    (h : x.isFinite = false) : (F64.sumList l).isFinite = false := by
  have aux : ∀ (l : List F64) (acc : F64),
      (∃ x ∈ l, x.isFinite = false) ∨ acc.isFinite = false →
      (l.foldl F64.add acc).isFinite = false := by
    intro l
    induction l with
    | nil =>
      intro acc h
      rcases h with ⟨x, hx, _⟩ | h
      · simp at hx
      · simpa using h
    | cons y ys ih =>
      intro acc h
      rcases h with ⟨x, hx, hxf⟩ | h
      · rcases List.mem_cons.mp hx with rfl | hx2
        · exact ih _ (Or.inr (F64.add_not_finite (Or.inr hxf)))
        · exact ih _ (Or.inl ⟨x, hx2, hxf⟩)
      · exact ih _ (Or.inr (F64.add_not_finite (Or.inl h)))
  exact aux l _ (Or.inl ⟨x, hx, h⟩)

/-- `from_secs_f64` panics on every non-finite value. -/
lemma durationFromSecsF64_not_finite {x : F64} (h : x.isFinite = false) :
    durationFromSecsF64 x = none := by
  cases x <;> simp_all [durationFromSecsF64, F64.isFinite]

/-- The pace of a zero-distance lap is non-finite (an infinity for nonzero
time, NaN for zero time). -/
lemma fpPace_zero_distance {l : Lap} (h : l.distance = 0) :
    (fpPace l).isFinite = false := by
  unfold fpPace
  rw [h]
  by_cases ht0 : l.time = 0
  · simp [F64.div, F64.isFinite, ht0]
  · by_cases htpos : 0 < l.time
    · simp [F64.div, F64.isFinite, ht0, htpos]
    · have htneg : l.time < 0 := lt_of_le_of_ne (le_of_not_lt htpos) ht0
      simp [F64.div, F64.isFinite, ht0, htpos, htneg]

/-- For a lap of positive distance the pace is the exact rational
`lapPace`. -/
lemma fpPace_pos_distance {l : Lap} (h : 0 < l.distance) :
    fpPace l = F64.finite (lapPace l) := by
  unfold fpPace lapPace
  have h1000 : (1000 : ℚ) ≠ 0 := by norm_num
  have hd : l.distance / 1000 ≠ 0 := by positivity
  simp [F64.div, h1000, hd]

/-- Summing finitely-valued paces gives the finite rational sum. -/
lemma F64.sumList_finite_paces (ls : List Lap)
    (h : ∀ l ∈ ls, 0 < l.distance) :
    F64.sumList (ls.map fpPace) = F64.finite ((ls.map lapPace).sum) := by
  have aux : ∀ (ls : List Lap) (acc : ℚ), (∀ l ∈ ls, 0 < l.distance) →
      (ls.map fpPace).foldl F64.add (.finite acc) =
        F64.finite (acc + (ls.map lapPace).sum) := by
    intro ls
    induction ls with
    | nil => intro acc _; simp
    | cons l rest ih =>
      intro acc hl
      have hthis : 0 < l.distance := hl l (List.mem_cons_self l rest)
      have hrest : ∀ x ∈ rest, 0 < x.distance := fun x hx =>
        hl x (List.mem_cons_of_mem l hx)
      simp only [List.map_cons, List.foldl_cons, fpPace_pos_distance hthis,
        F64.add, List.sum_cons]
      rw [ih _ hrest]
      ring_nf
  have := aux ls 0 h
  simpa [F64.sumList] using this

/-- A single-sample track has no window. -/
lemma Track.ascent_singleton (s : Sample) : Track.ascent ⟨[s]⟩ = 0 := rfl

/-- A single-sample track has no window. -/
lemma Track.descent_singleton (s : Sample) : Track.descent ⟨[s]⟩ = 0 := rfl

/-! ## Claims -/

/-- Claim C1: the claim states that `Track.ascent` sums exactly the strictly
positive values of `altitude[i+1] - altitude[i]` and `Track.descent` the
strictly positive values of `altitude[i] - altitude[i+1]`.  The code passes
the window pair to `altitude_difference` in the opposite order, so on the
climbing track with altitudes `[10, 15]` it yields `ascent = 0` and
`descent = 5`, where the claim requires `ascent = 5` and `descent = 0`. -/
theorem claim_C1_ascent_descent_swapped :
    Track.ascent track1015 = 0 ∧ Track.descent track1015 = 5 := by
  constructor <;>
    norm_num [track1015, Track.ascent_cons, Track.descent_cons,
      Track.ascent_singleton, Track.descent_singleton, altSample,
      altitude_difference]

/-- Claim C2: the claim states that for a track with all altitudes present
and monotonically non-decreasing, `descent() = 0` and
`ascent() = last - first`.  On the non-increasing track `[15, 10]` (dually,
the non-decreasing case is `claim_C1_ascent_descent_swapped`) the code yields
`ascent = 5` and `descent = 0`, where the claim requires `ascent = 0` and
`descent = first - last = 5`: the two accessors are interchanged. -/
theorem claim_C2_monotone_swapped :
    Track.ascent track1510 = 5 ∧ Track.descent track1510 = 0 := by
  constructor <;>
    norm_num [track1510, Track.ascent_cons, Track.descent_cons,
      Track.ascent_singleton, Track.descent_singleton, altSample,
      altitude_difference]

/-- Claim C3: the claim states that `cadence()` returns 0 for an activity
with zero laps.  The code has no empty guard (unlike `heart_rate`) and
divides by the lap count unconditionally, so with zero laps it performs the
`i32` division `0 / 0`, which panics in Rust (modelled as `none`). -/
theorem claim_C3_cadence_division_by_zero :
    Activity.cadence emptyLapActivity = none := rfl

/-- Claim C8: an adjacent sample pair in which either sample lacks a
recorded altitude contributes nothing to `ascent()` or `descent()`: both
accessors equal adjacent-pair sums in which such a pair contributes exactly
0, and the track with altitudes `[100, None, 105]` yields 0 for both (not 5,
and not a value treating the missing altitude as 0). -/
theorem claim_C8_missing_altitude_skipped :
    (∀ t : Track,
      t.ascent = specDropSum t.altitudes ∧ t.descent = specGainSum t.altitudes) ∧
    Track.ascent trackGap = 0 ∧ Track.descent trackGap = 0 := by
  refine ⟨fun t => ?_, ?_, ?_⟩
  · obtain ⟨l⟩ := t
    exact ⟨Track.ascent_eq_specDropSum l, Track.descent_eq_specGainSum l⟩
  · norm_num [trackGap, Track.ascent_cons, Track.ascent_singleton, altSample,
      altitude_difference]
  · norm_num [trackGap, Track.descent_cons, Track.descent_singleton, altSample,
      altitude_difference]

/-- Claim C9: for every activity with zero laps, `distance()`,
`heart_rate()`, `calories()`, `ascent()` and `descent()` all return 0. -/
theorem claim_C9_zero_laps_zero :
    ∀ a : Activity, a.laps = [] →
      a.distance = 0 ∧ a.heart_rate = 0 ∧ a.calories = 0 ∧
        a.ascent = 0 ∧ a.descent = 0 := by
  intro a h
  simp [Activity.distance, Activity.heart_rate, Activity.calories,
    Activity.ascent, Activity.descent, h]

/-- Witness for C9 at the concrete zero-lap activity. -/
theorem claim_C9_zero_laps_zero_witness :
    Activity.distance emptyLapBiking = 0 ∧
      Activity.heart_rate emptyLapBiking = 0 ∧
      Activity.calories emptyLapBiking = 0 ∧
      Activity.ascent emptyLapBiking = 0 ∧
      Activity.descent emptyLapBiking = 0 :=
  claim_C9_zero_laps_zero emptyLapBiking rfl

/-- Claim C10: for every track, `ascent()` and `descent()` are non-negative,
and a track with at most one sample, or with no recorded altitude at all,
yields 0 for both. -/
theorem claim_C10_nonneg :
    ∀ t : Track,
      0 ≤ t.ascent ∧ 0 ≤ t.descent ∧
      (t.samples.length ≤ 1 → t.ascent = 0 ∧ t.descent = 0) ∧
      ((∀ s ∈ t.samples, s.altitude = none) → t.ascent = 0 ∧ t.descent = 0) :=
  fun t =>
    ⟨Track.ascent_nonneg t, Track.descent_nonneg t,
     fun h => ⟨Track.ascent_of_short t h, Track.descent_of_short t h⟩,
     fun h => ⟨Track.ascent_of_all_none t h, Track.descent_of_all_none t h⟩⟩

/-- Witness for C10 at the empty track. -/
theorem claim_C10_nonneg_witness :
    0 ≤ Track.ascent emptyTrack ∧ 0 ≤ Track.descent emptyTrack ∧
      Track.ascent emptyTrack = 0 ∧ Track.descent emptyTrack = 0 :=
  ⟨(claim_C10_nonneg emptyTrack).1, (claim_C10_nonneg emptyTrack).2.1,
   ((claim_C10_nonneg emptyTrack).2.2.1 (by decide)).1,
   ((claim_C10_nonneg emptyTrack).2.2.1 (by decide)).2⟩

/-- Claim C4 counterexample: the claim states that for an activity containing
a zero-distance lap `average_tempo()` does not fail and the non-finite pace
propagates into the returned result.  On one lap of time 1 and distance 0 the
pace is `+∞`; `Duration::from_secs_f64` panics on it (modelled `none`), so no
result is returned at all. -/
theorem claim_C4_counterexample :
    Activity.average_tempo zeroDistActivity = none := by
  norm_num [Activity.average_tempo, fpPace, F64.div, F64.sumList, F64.add,
    durationFromSecsF64, zeroDistActivity, mkLap]

/-- Claim C4 as amended: a lap with zero distance makes the per-lap pace
non-finite (`±∞` or NaN); the non-finite value propagates through the sum
and the mean, and then `Duration::from_secs_f64` panics on it, so
`average_tempo()` fails instead of returning a value. -/
theorem claim_C4_amended :
    ∀ a : Activity, (∃ l ∈ a.laps, l.distance = 0) →
      Activity.average_tempo a = none := by
  rintro a ⟨l, hl, hd⟩
  have h1 : (fpPace l).isFinite = false := fpPace_zero_distance hd
  have h2 : (F64.sumList (a.laps.map fpPace)).isFinite = false :=
    F64.sumList_not_finite (List.mem_map_of_mem fpPace hl) h1
  have h3 := F64.div_not_finite (F64.finite (a.laps.length : ℚ)) h2
  exact durationFromSecsF64_not_finite h3

/-- Witness for the amended C4: the zero-distance lap may sit after a normal
lap, the failure still occurs. -/
theorem claim_C4_amended_witness :
    Activity.average_tempo zeroDistSecondActivity = none :=
  claim_C4_amended zeroDistSecondActivity
    ⟨mkLap 1 0 0 0, by simp [zeroDistSecondActivity], rfl⟩

/-- Claim C5 counterexample: the claim states that for every activity with
non-negative lap times `duration()` is the sum of the floored lap times.  A
single lap of `10^16` seconds is non-negative, but the total exceeds the
range of `chrono::Duration` (`i64::MAX` milliseconds), so the `unwrap` in
`duration()` panics (modelled `none`) instead of returning `10^16`. -/
theorem claim_C5_counterexample :
    (0 : ℚ) ≤ (mkLap ((10 : ℚ) ^ 16) 0 0 0).time ∧
      Activity.duration hugeActivity = none := by
  constructor
  · norm_num [mkLap]
  · norm_num [Activity.duration, hugeActivity, mkLap, rustCastU64,
      chronoMaxSecs]

/-- Rust `as u64` is exactly the floor for values below `2^64`. -/
lemma rustCastU64_eq_floor {q : ℚ} (h : q < 2 ^ 64) :
    rustCastU64 q = ⌊q⌋.toNat := by
  unfold rustCastU64
  apply min_eq_left
  have h1 : ⌊q⌋ < 2 ^ 64 := by
    rw [Int.floor_lt]
    exact_mod_cast h
  have h2 : ⌊q⌋ ≤ (2 : ℤ) ^ 64 - 1 := by omega
  calc ⌊q⌋.toNat ≤ ((2 : ℤ) ^ 64 - 1).toNat := Int.toNat_le_toNat h2
    _ = 2 ^ 64 - 1 := by decide

/-- Claim C5 as amended: for every activity whose lap times are non-negative
and each below `2^64`, and whose floored total fits `chrono::Duration`
(at most `i64::MAX` milliseconds), `duration()` equals the sum of the lap
times each truncated (floored, not rounded) to whole seconds. -/
theorem claim_C5_amended :
    ∀ a : Activity, (∀ l ∈ a.laps, 0 ≤ l.time ∧ l.time < 2 ^ 64) →
      (a.laps.map (fun l => ⌊l.time⌋.toNat)).sum ≤ chronoMaxSecs →
      Activity.duration a = some ((a.laps.map (fun l => ⌊l.time⌋.toNat)).sum) := by
  intro a h hsum
  have hmap : a.laps.map (fun l => rustCastU64 l.time) =
      a.laps.map (fun l => ⌊l.time⌋.toNat) :=
    List.map_congr_left fun l hl => rustCastU64_eq_floor (h l hl).2
  unfold Activity.duration
  rw [hmap]
  exact if_pos hsum

/-- Witness for the amended C5: the spec's own example, lap times 10.7 s and
5.4 s give a duration of 15 s (10 + 5), not 16. -/
theorem claim_C5_amended_witness : Activity.duration truncActivity = some 15 := by
  have h1 : ∀ l ∈ truncActivity.laps, 0 ≤ l.time ∧ l.time < 2 ^ 64 := by
    intro l hl
    simp only [truncActivity] at hl
    rcases List.mem_cons.mp hl with rfl | hl2
    · constructor <;> norm_num [mkLap]
    · rcases List.mem_cons.mp hl2 with rfl | hl3
      · constructor <;> norm_num [mkLap]
      · simp at hl3
  have h2 : (truncActivity.laps.map (fun l => ⌊l.time⌋.toNat)).sum ≤
      chronoMaxSecs := by
    norm_num [truncActivity, mkLap, chronoMaxSecs]
    decide
  have h3 := claim_C5_amended truncActivity h1 h2
  rw [h3]
  norm_num [truncActivity, mkLap]
  decide

/-- Claim C6 counterexample: the claim states that `heart_rate()` equals the
arithmetic mean of the laps' average heart rates.  For laps with averages
`[60, 81]` the mean is `141/2 = 70.5`, but the code's `i32` division returns
`70`. -/
theorem claim_C6_counterexample :
    Activity.heart_rate hr6081Activity = 70 ∧
      ((Activity.heart_rate hr6081Activity : ℚ) ≠ (60 + 81) / 2) := by
  have h : Activity.heart_rate hr6081Activity = 70 := by decide
  refine ⟨h, ?_⟩
  rw [h]
  norm_num

/-- Claim C6 as amended: `heart_rate()` is the integer quotient, truncated
toward zero, of the sum of the laps' average heart rates by the lap count:
it equals the exact arithmetic mean whenever the lap count divides the sum
(e.g. laps `[60, 80]` give `70`), equals the floor of the mean whenever the
sum is non-negative, and is `0` for zero laps. -/
theorem claim_C6_amended :
    ∀ a : Activity,
      (a.laps = [] → a.heart_rate = 0) ∧
      (a.laps ≠ [] →
        ((a.laps.length : ℤ) ∣ hrSum a →
          (a.heart_rate : ℚ) = (hrSum a : ℚ) / (a.laps.length : ℚ)) ∧
        (0 ≤ hrSum a →
          a.heart_rate = ⌊(hrSum a : ℚ) / (a.laps.length : ℚ)⌋)) := by
  intro a
  constructor
  · intro h
    simp [Activity.heart_rate, h]
  · intro h
    have hEmpty : a.laps.isEmpty = false := by
      simpa [List.isEmpty_iff] using h
    have hlen0 : a.laps.length ≠ 0 := by
      simpa [List.length_eq_zero] using h
    have hr_eq : a.heart_rate = Int.tdiv (hrSum a) (a.laps.length : ℤ) := by
      simp [Activity.heart_rate, hEmpty, hrSum]
    constructor
    · rintro ⟨k, hk⟩
      have hlenZ : (a.laps.length : ℤ) ≠ 0 := by exact_mod_cast hlen0
      have htdiv : Int.tdiv (hrSum a) (a.laps.length : ℤ) = k := by
        rw [hk]
        exact Int.mul_tdiv_cancel_left k hlenZ
      have hlenQ : (a.laps.length : ℚ) ≠ 0 := by exact_mod_cast hlen0
      rw [hr_eq, htdiv, hk]
      push_cast
      field_simp
    · intro hpos
      have hlenN : (0 : ℤ) ≤ (a.laps.length : ℤ) := by positivity
      rw [hr_eq, Int.tdiv_eq_ediv hpos hlenN]
      rw [Rat.floor_intCast_div_natCast]

/-- Witness for the amended C6: the spec's example, lap averages `[60, 80]`
give exactly `70`. -/
theorem claim_C6_amended_witness :
    (Activity.heart_rate hr6080Activity : ℚ) = 70 := by
  have hne : hr6080Activity.laps ≠ [] := by decide
  have hdvd : (hr6080Activity.laps.length : ℤ) ∣ hrSum hr6080Activity :=
    ⟨70, by decide⟩
  have h := ((claim_C6_amended hr6080Activity).2 hne).1 hdvd
  rw [h]
  norm_num [hrSum, hr6080Activity, mkLap]

/-- Claim C7 counterexample: the claim states that for any activity with at
least one lap, all laps of positive distance, `average_tempo()` equals the
arithmetic mean of the per-lap paces.  One lap of time `-60` s and distance
1000 m has mean pace `-60`, and `Duration::from_secs_f64` panics on a
negative value (modelled `none`), so the accessor returns nothing rather
than the mean. -/
theorem claim_C7_counterexample :
    Activity.average_tempo negTimeActivity = none := by
  norm_num [Activity.average_tempo, fpPace, F64.div, F64.sumList, F64.add,
    durationFromSecsF64, negTimeActivity, mkLap]

/-- Claim C7 as amended: for every activity with at least one lap, all of
whose laps have positive distance, and whose mean per-lap pace is
non-negative (and below `2^64` s), `average_tempo()` equals the arithmetic
mean of the per-lap paces `lap.time / (lap.distance / 1000)` — the sum of
paces divided by the lap count, not total time over total distance. -/
theorem claim_C7_amended :
    ∀ a : Activity, a.laps ≠ [] → (∀ l ∈ a.laps, 0 < l.distance) →
      0 ≤ tempoMean a → tempoMean a < 2 ^ 64 →
      Activity.average_tempo a = some (tempoMean a) := by
  intro a hne hd h0 hlt
  have hsum := F64.sumList_finite_paces a.laps hd
  have hlenQ : (a.laps.length : ℚ) ≠ 0 := by
    have : a.laps.length ≠ 0 := by simpa [List.length_eq_zero] using hne
    exact_mod_cast this
  unfold Activity.average_tempo
  rw [hsum]
  have hdiv : F64.div (F64.finite (a.laps.map lapPace).sum)
      (F64.finite (a.laps.length : ℚ)) = F64.finite (tempoMean a) := by
    simp [F64.div, hlenQ, tempoMean]
  rw [hdiv]
  simp only [durationFromSecsF64]
  rw [if_pos ⟨h0, hlt⟩]

/-- Witness for the amended C7: two laps of equal distance with paces 240 and
360 s/km give `(240 + 360) / 2 = 300`, not total time over total distance of
anything else. -/
theorem claim_C7_amended_witness :
    Activity.average_tempo tempoActivity = some 300 := by
  have hmean : tempoMean tempoActivity = 300 := by
    norm_num [tempoMean, lapPace, tempoActivity, mkLap]
  have hne : tempoActivity.laps ≠ [] := by decide
  have hd : ∀ l ∈ tempoActivity.laps, 0 < l.distance := by
    intro l hl
    simp only [tempoActivity] at hl
    rcases List.mem_cons.mp hl with rfl | hl2
    · norm_num [mkLap]
    · rcases List.mem_cons.mp hl2 with rfl | hl3
      · norm_num [mkLap]
      · simp at hl3
  have h := claim_C7_amended tempoActivity hne hd (by rw [hmean]; norm_num)
    (by rw [hmean]; norm_num)
  rw [h, hmean]
